import Mathlib

/-!
Verification development for the `go-decision-table` repository
(`decisiontable` package): a shallow embedding of the typed value-coercion
and rule-matching engine, followed by theorems about its behaviour.

Modelling conventions:
* Go's dynamically typed `any` values are embedded as the inductive `GoVal`;
  the Go `nil` interface is the constructor `GoVal.null`.
* `int64` is embedded as `Int` (the narrower signed widths convert exactly
  and are collapsed; the `uint64`/`json.Number` branches of the converters
  are outside the embedded universe).
* `float64` is embedded by its exact value: a finite float is the dyadic
  rational `m * 2 ^ e` (`GoVal.float m e`); NaN and infinities are outside
  the embedded universe.
* `*big.Float` (128-bit significand) is likewise embedded by its exact
  dyadic value (`GoVal.dec m e`); parsing a base-10 literal rounds to a
  128-bit significand with round-to-nearest-even, as `big.Float` does.
* `time.Time` is embedded as an `Int` in a monotone encoding produced by
  the (simplified) ISO date / RFC3339 parsers; the external `time.Parse`
  is abstracted to parsers of the exact fixed layouts.
* A compiled `*regexp.Regexp` is abstracted by its matching function
  (`GoVal.regex : (String → Bool) → GoVal`); `regexp.Compile` is modelled
  as always succeeding with a substring matcher, since no claim depends on
  regex semantics.
* Go maps (`map[string]any`) are embedded as association lists with
  overwrite-on-insert; lookup of an absent key yields `GoVal.null`,
  matching Go's zero-value map reads.
* Errors (`error` returns) are `Except String`; error strings follow the
  `fmt.Errorf` formats of the source.
-/

/-- `ColumnType` from the source: how a column participates in the table. -/
inductive ColumnType where
  | condition
  | conclusion
  | metadata
deriving DecidableEq, Repr

/-- `DataType` from the source: the closed tag of the eight value types. -/
inductive DataType where
  | string
  | integer
  | boolean
  | decimal
  | date
  | datetime
  | listString
  | listInteger
deriving DecidableEq, Repr

/-- `OperatorType` from the source. Go represents operators as strings; the
extra constructor `empty` embeds the empty operator string `""` that
`prepareRow` rejects. -/
inductive OperatorType where
  | greaterOrEqual
  | greater
  | equal
  | less
  | lessOrEqual
  | notEqual
  | opIn
  | notIn
  | anyContained
  | notAnyContained
  | allContained
  | notAllContained
  | containsAll
  | notContainsAll
  | allEqual
  | matchesRegex
  | isNull
  | isNotNull
  | empty
deriving DecidableEq, Repr

/-- `MatchPolicy` from the source. -/
inductive MatchPolicy where
  | first
  | all
  | unique
deriving DecidableEq, Repr

/-- `NoMatchPolicy` from the source. -/
inductive NoMatchPolicy where
  | returnDefault
  | throwError
deriving DecidableEq, Repr

/-- `RowValidationPolicy` from the source. -/
inductive RowValidationPolicy where
  | strict
  | lenient
deriving DecidableEq, Repr

/-- Embedding of Go `any` values flowing through the engine: raw inputs,
sanitized cell values, and materialized outputs. `null` is the nil
interface; `float`/`dec` carry exact dyadic values `m * 2 ^ e`; `regex` is
a compiled pattern abstracted by its matching function. -/
inductive GoVal where
  | null
  | str (s : String)
  | int (i : Int)
  | float (m : Int) (e : Int)
  | bool (b : Bool)
  | dec (m : Int) (e : Int)
  | time (t : Int)
  | list (vs : List GoVal)
  | regex (m : String → Bool)

/-- Go `left == nil` on an interface value. -/
def isNullV : GoVal → Bool
  | .null => true
  | _ => false

/-! ### Numeric helpers: exact dyadic arithmetic for `float64`/`big.Float` -/

/-- Number of binary digits of `n` (`0` has one digit, matching the length
of its printed base-2 form). Implemented over `Nat.toDigits`, which is
fuel-structural and hence kernel-reducible. -/
def bitlen (n : Nat) : Nat := (Nat.toDigits 2 n).length

/-- Round `a / b` (with `b > 0`) to the nearest integer, ties to even. -/
def rne (a b : Nat) : Nat :=
  let q := a / b
  let r := a % b
  if 2 * r < b then q
  else if 2 * r > b then q + 1
  else if q % 2 = 0 then q else q + 1

/-- The exact value of the Go conversion `float64(v)` for an `int64` `v`:
round-to-nearest-even at a 53-bit significand. For `|v| ≤ 2 ^ 63` the
result is an integer. -/
def floatOfInt64 (v : Int) : Int :=
  let n := v.natAbs
  if n ≤ 2 ^ 53 then v
  else
    let e := bitlen n - 53
    let m := rne n (2 ^ e)
    (if v < 0 then -1 else 1) * (m * 2 ^ e)

/-- Compare the exact values `m1 * 2 ^ e1` and `m2 * 2 ^ e2` (the model of
`big.Float.Cmp`). -/
def dyCmp (m1 : Int) (e1 : Int) (m2 : Int) (e2 : Int) : Ordering :=
  if e1 ≥ e2 then compare (m1 * 2 ^ (e1 - e2).toNat) m2
  else compare m1 (m2 * 2 ^ (e2 - e1).toNat)

/-- Round the positive rational `num / den` (`num, den > 0`) to a 128-bit
binary significand, round-to-nearest-even: the model of what
`big.Float.SetPrec(128).SetString` does to the exact value of a base-10
literal. Returns the dyadic pair `(m, e)` with value `m * 2 ^ e`. -/
def roundRat128 (num den : Nat) : Int × Int :=
  -- floor of log2 (num / den), computed exactly
  let L := bitlen den
  let k : Int := (bitlen ((num <<< L) / den) - 1 : Int) - L
  let e : Int := k - 127
  let m : Nat := if e ≤ 0 then rne (num <<< (-e).toNat) den else rne num (den <<< e.toNat)
  if m = 2 ^ 128 then (2 ^ 127, e + 1) else (m, e)

/-! ### String helpers -/

/-- ASCII whitespace, the relevant fragment of Unicode `White_Space` that
`strings.TrimSpace` strips. -/
def isSpaceChar (c : Char) : Bool :=
  c == ' ' || c == '\t' || c == '\n' || c == '\x0b' || c == '\x0c' || c == '\r'

/-- `strings.TrimSpace` (over the ASCII whitespace characters). -/
def trimS (s : String) : String :=
  ⟨((s.data.dropWhile isSpaceChar).reverse.dropWhile isSpaceChar).reverse⟩

/-- Parse an optional sign followed by decimal digits, as `strconv.ParseInt`
base 10 does, with the `int64` range check. -/
def parseInt64 (s : String) : Except String Int :=
  let (sign, digits) :=
    match s.data with
    | '-' :: rest => (true, rest)
    | '+' :: rest => (false, rest)
    | l => (false, l)
  if digits.isEmpty then .error ("invalid int64 syntax " ++ s)
  else if digits.all Char.isDigit then
    let n := digits.foldl (fun acc c => acc * 10 + (c.toNat - '0'.toNat)) 0
    let v : Int := if sign then -(n : Int) else (n : Int)
    if v < -(2 ^ 63) || v ≥ 2 ^ 63 then .error ("value out of range " ++ s)
    else .ok v
  else .error ("invalid int64 syntax " ++ s)

/-- Parse an unsigned decimal-digit run, returning its value and length. -/
def digitsVal (l : List Char) : Nat :=
  l.foldl (fun acc c => acc * 10 + (c.toNat - '0'.toNat)) 0

/-- Parse a base-10 literal `[sign] digits [. digits]` to the exact pair
(numerator, power-of-ten denominator exponent). Scientific notation and
the other forms `big.Float.SetString` accepts are outside the model. -/
def parseDecLit (s : String) : Option (Bool × Nat × Nat) :=
  let (sign, rest) :=
    match s.data with
    | '-' :: r => (true, r)
    | '+' :: r => (false, r)
    | l => (false, l)
  let intPart := rest.takeWhile Char.isDigit
  let after := rest.dropWhile Char.isDigit
  match after with
  | [] => if intPart.isEmpty then none else some (sign, digitsVal intPart, 0)
  | '.' :: fracRaw =>
    let fracPart := fracRaw.takeWhile Char.isDigit
    if (fracRaw.dropWhile Char.isDigit).isEmpty && !(intPart.isEmpty && fracPart.isEmpty) then
      some (sign, digitsVal (intPart ++ fracPart), fracPart.length)
    else none
  | _ => none

/-- The model of `new(big.Float).SetPrec(128).SetString(s)`: parse the
base-10 literal exactly and round to a 128-bit significand. -/
def parseDecimal128 (s : String) : Except String GoVal :=
  match parseDecLit s with
  | none => .error ("cannot convert " ++ s ++ " to decimal")
  | some (sign, num, tenExp) =>
    if num = 0 then .ok (.dec 0 0)
    else
      let (m, e) := roundRat128 num (10 ^ tenExp)
      .ok (.dec (if sign then -m else m) e)

/-! ### Value coercion (`coercePrimitive` and its converters) -/

/-- Abstraction of `fmt.Sprint` on the embedded values. Only the `str`
case is semantically load-bearing for the engine (STRING coercion of a
raw string returns it unchanged); the other cases produce a printable
rendering. -/
def sprint : GoVal → String
  | .null => "<nil>"
  | .str s => s
  | .int i => toString i
  | .float m e => toString m ++ "p" ++ toString e
  | .bool b => if b then "true" else "false"
  | .dec m e => toString m ++ "p" ++ toString e
  | .time t => toString t
  | .list _ => "[...]"
  | .regex _ => "<regexp>"

/-- `toTrimmedString` from the source (the `fmt.Stringer` case is outside
the embedded universe). -/
def toTrimmedString (raw : GoVal) : Except String String :=
  match raw with
  | .null => .error "cannot convert nil to string"
  | .str v =>
    let trimmed := trimS v
    if trimmed == "" then .error "cannot convert empty string value"
    else .ok trimmed
  | v =>
    let trimmed := trimS (sprint v)
    if trimmed == "" then .error "cannot convert value to string"
    else .ok trimmed

/-- `toInt64` from the source: identity on integers, integral floats,
trimmed decimal strings via `strconv.ParseInt`. -/
def toInt64 (raw : GoVal) : Except String Int :=
  match raw with
  | .int v => .ok v
  | .float m e =>
    -- `math.Trunc(v) != v` iff the exact value is not an integer
    if e ≥ 0 then .ok (m * 2 ^ e.toNat)
    else if m % 2 ^ (-e).toNat == 0 then .ok (m / 2 ^ (-e).toNat)
    else .error "value is not an integer"
  | .str v =>
    let trimmed := trimS v
    if trimmed == "" then .error "cannot convert empty string to int64"
    else parseInt64 trimmed
  | _ => .error "cannot convert to int64"

/-- `toBool` from the source (renamed: a bare `toBool` collides with
`ToBool.toBool` in name resolution): booleans, the case-insensitive
string forms, and non-zero integers. -/
def toBoolean (raw : GoVal) : Except String Bool :=
  match raw with
  | .bool v => .ok v
  | .str v =>
    let trimmed := trimS v
    if trimmed == "" then .error "cannot convert empty string to bool"
    else
      let l := trimmed.toLower
      if l == "true" || l == "1" || l == "yes" || l == "y" then .ok true
      else if l == "false" || l == "0" || l == "no" || l == "n" then .ok false
      else .error ("cannot convert " ++ v ++ " to bool")
  | .int v => .ok (decide (v ≠ 0))
  | _ => .error "cannot convert to bool"

/-- `toBigFloat` from the source: decimals are cloned (value-identical),
strings are parsed at 128-bit precision, `int64` and `float64` convert
exactly. -/
def toBigFloat (raw : GoVal) : Except String GoVal :=
  match raw with
  | .dec m e => .ok (.dec m e)
  | .str v =>
    let trim := trimS v
    if trim == "" then .error "cannot convert empty string to decimal"
    else parseDecimal128 trim
  | .int v => .ok (.dec v 0)
  | .float m e => .ok (.dec m e)
  | _ => .error "cannot convert to decimal"

/-- Parse exactly two decimal digits. -/
def twoDigits : List Char → Option (Nat × List Char)
  | a :: b :: rest =>
    if a.isDigit && b.isDigit then
      some ((a.toNat - '0'.toNat) * 10 + (b.toNat - '0'.toNat), rest)
    else none
  | _ => none

/-- Parse the fixed calendar layout `2006-01-02`, yielding the monotone
encoding `(y * 12 + m) * 32 + d` (the model of the `time.Time` value). -/
def parseDateChars (l : List Char) : Option (Int × List Char) :=
  match l with
  | y1 :: y2 :: y3 :: y4 :: '-' :: rest =>
    if [y1, y2, y3, y4].all Char.isDigit then
      let y := digitsVal [y1, y2, y3, y4]
      match twoDigits rest with
      | some (m, '-' :: rest2) =>
        match twoDigits rest2 with
        | some (d, rest3) =>
          if 1 ≤ m && m ≤ 12 && 1 ≤ d && d ≤ 31 then
            some (((y * 12 + m) * 32 + d : Nat), rest3)
          else none
        | _ => none
      | _ => none
    else none
  | _ => none

/-- `parseISODate` from the source: trimmed string parsed with the
`2006-01-02` layout (the external `time.Parse` is abstracted to the
layout's shape plus range checks). -/
def parseISODate (raw : GoVal) : Except String GoVal :=
  match toTrimmedString raw with
  | .error e => .error e
  | .ok str =>
    match parseDateChars str.data with
    | some (t, []) => .ok (.time t)
    | _ => .error ("invalid date " ++ str)

/-- Parse `T15:04:05[.frac][Z]`, the time-of-day part of the RFC3339
layouts (numeric zone offsets are outside the model). -/
def parseClockChars (l : List Char) : Option Int :=
  match l with
  | 'T' :: rest =>
    match twoDigits rest with
    | some (h, ':' :: rest2) =>
      match twoDigits rest2 with
      | some (mi, ':' :: rest3) =>
        match twoDigits rest3 with
        | some (s, rest4) =>
          let (nanos, rest5) :=
            match rest4 with
            | '.' :: fr =>
              let digits := fr.takeWhile Char.isDigit
              if digits.isEmpty then (none, rest4)
              else
                let scaled := digitsVal (digits.take 9) * 10 ^ (9 - (digits.take 9).length)
                (some scaled, fr.dropWhile Char.isDigit)
            | _ => (some 0, rest4)
          match nanos, rest5 with
          | some ns, ['Z'] =>
            if h ≤ 23 && mi ≤ 59 && s ≤ 59 then
              some ((((h * 60 + mi) * 60 + s) * 1000000000 + ns : Nat))
            else none
          | _, _ => none
        | _ => none
      | _ => none
    | _ => none
  | _ => none

/-- `parseISODateTime` from the source: trimmed string parsed with the
RFC3339 layouts (nanosecond layout first; a plain RFC3339 string is also
accepted by the nanosecond layout, so the model needs a single parser). -/
def parseISODateTime (raw : GoVal) : Except String GoVal :=
  match toTrimmedString raw with
  | .error e => .error e
  | .ok str =>
    match parseDateChars str.data with
    | some (d, rest) =>
      match parseClockChars rest with
      | some clock => .ok (.time (d * 86400000000000 + clock))
      | none => .error ("invalid datetime " ++ str)
    | none => .error ("invalid datetime " ++ str)

/-- `toInterfaceSlice` from the source. The typed Go slices (`[]string`,
`[]int`, …) are already embedded as `GoVal.list`; non-slice values are
rejected as in the reflection fallback. -/
def toInterfaceSlice : GoVal → Except String (List GoVal)
  | .null => .ok []
  | .list vs => .ok vs
  | _ => .error "value is not a slice or array"

/-- `elementDataType` from the source. -/
def elementDataType (dt : DataType) : DataType :=
  match dt with
  | .listString => .string
  | .listInteger => .integer
  | dt => dt

/-- The scalar fragment of `coercePrimitive` (every branch except the two
list types). It is the coercion applied to list *elements*; element types
are always scalar because `elementDataType` maps the list types to their
element type, so the list branches here are unreachable and mirror the
source's defensive default error. -/
def coerceScalar (dt : DataType) (raw : GoVal) : Except String GoVal :=
  if isNullV raw then .ok .null
  else
    match dt with
    | .string => .ok (.str (sprint raw))
    | .integer => (toInt64 raw).map GoVal.int
    | .decimal => toBigFloat raw
    | .boolean => (toBoolean raw).map GoVal.bool
    | .date => parseISODate raw
    | .datetime => parseISODateTime raw
    | .listString => .error "unsupported data type LIST_STRING"
    | .listInteger => .error "unsupported data type LIST_INTEGER"

/-- The element loop shared by `coerceList` and `sanitizeCollection`:
scalar coercion applied element-wise, first error wins. -/
def coerceElems (elemType : DataType) : List GoVal → Except String (List GoVal)
  | [] => .ok []
  | v :: rest =>
    match coerceScalar elemType v with
    | .error e => .error e
    | .ok sanitized =>
      match coerceElems elemType rest with
      | .error e => .error e
      | .ok out => .ok (sanitized :: out)

/-- `coerceList` from the source. -/
def coerceList (raw : GoVal) (elemType : DataType) : Except String (List GoVal) :=
  match toInterfaceSlice raw with
  | .error e => .error e
  | .ok values => coerceElems elemType values

/-- `coercePrimitive` from the source: `nil` passes through, the list
types delegate to `coerceList`, the scalar types to their converters. -/
def coercePrimitive (dt : DataType) (raw : GoVal) : Except String GoVal :=
  if isNullV raw then .ok .null
  else
    match dt with
    | .listString => (coerceList raw .string).map GoVal.list
    | .listInteger => (coerceList raw .integer).map GoVal.list
    | _ => coerceScalar dt raw

/-- `sanitizeCollection` from the source: `nil` yields the nil slice,
otherwise the input must be sequence-shaped and its elements are coerced
at the element type. -/
def sanitizeCollection (dt : DataType) (raw : GoVal) : Except String (List GoVal) :=
  if isNullV raw then .ok []
  else
    match toInterfaceSlice raw with
    | .error e => .error e
    | .ok values => coerceElems (elementDataType dt) values

/-- `sanitizeActualValue` from the source. -/
def sanitizeActualValue (dt : DataType) (actual : GoVal) : Except String GoVal :=
  coercePrimitive dt actual

/-- `sanitizeActualCollection` from the source. -/
def sanitizeActualCollection (dt : DataType) (actual : GoVal) : Except String (List GoVal) :=
  sanitizeCollection dt actual

/-- `sanitizeReturnValue` from the source. -/
def sanitizeReturnValue (dt : DataType) (raw : GoVal) : Except String GoVal :=
  coercePrimitive dt raw

/-! ### Operator evaluation engine (`operators.go`) -/

/-- `requiresCollectionValue` from the source: operators whose *expected*
side must be sanitized into a collection. -/
def requiresCollectionValue (op : OperatorType) : Bool :=
  match op with
  | .opIn | .notIn | .anyContained | .notAnyContained
  | .allContained | .notAllContained | .containsAll | .notContainsAll => true
  | _ => false

/-- `expectsActualCollection` from the source: operators whose *actual*
side is itself a collection. -/
def expectsActualCollection (op : OperatorType) : Bool :=
  match op with
  | .anyContained | .notAnyContained | .allContained | .notAllContained
  | .containsAll | .notContainsAll | .allEqual => true
  | _ => false

/-- Propagate the Go pattern `match, err := f(); return !match, err`:
negate the boolean, keep the error. -/
def notE : Except String Bool → Except String Bool
  | .error e => .error e
  | .ok b => .ok (!b)

/-- The scalar branches of `equals`: the null check followed by the
type-directed casts. The two list branches of `equals` are split out
below so that element comparisons (always at a scalar element type, since
`elementDataType` never yields a list type) stay structurally recursive. -/
def scalarEquals (dt : DataType) (l r : GoVal) : Except String Bool :=
  if isNullV l || isNullV r then .ok (isNullV l && isNullV r)
  else
    match dt with
    | .string =>
      match l, r with
      | .str a, .str b => .ok (a == b)
      | _, _ => .error "values not strings"
    | .integer =>
      match l, r with
      | .int a, .int b => .ok (a == b)
      | _, _ => .error "values not int64"
    | .decimal =>
      match l, r with
      | .dec ma ea, .dec mb eb => .ok (dyCmp ma ea mb eb == .eq)
      | _, _ => .error "values not decimal"
    | .boolean =>
      match l, r with
      | .bool a, .bool b => .ok (a == b)
      | _, _ => .error "values not bool"
    | .date | .datetime =>
      match l, r with
      | .time a, .time b => .ok (a == b)
      | _, _ => .error "values not time.Time"
    | .listString | .listInteger => .error "values not list"

/-- The element loop of `equalsList` (lengths already known equal). -/
def equalsElems (elemType : DataType) : List GoVal → List GoVal → Except String Bool
  | a :: as, b :: bs =>
    match scalarEquals elemType a b with
    | .error e => .error e
    | .ok false => .ok false
    | .ok true => equalsElems elemType as bs
  | _, _ => .ok true

/-- `equalsList` from the source: both sides must be slices, unequal
lengths are unequal, otherwise element-wise equality at the element
type. -/
def equalsList (elemType : DataType) (l r : GoVal) : Except String Bool :=
  match l, r with
  | .list ls, .list rs =>
    if ls.length == rs.length then equalsElems elemType ls rs else .ok false
  | _, _ => .error "values not list"

/-- `equals` from the source: null equals null only; otherwise dispatch on
the declared type (list types delegate to `equalsList` with the scalar
element type, so the recursion is one level deep). -/
def equals (dt : DataType) (l r : GoVal) : Except String Bool :=
  match dt with
  | .listString =>
    if isNullV l || isNullV r then .ok (isNullV l && isNullV r)
    else equalsList .string l r
  | .listInteger =>
    if isNullV l || isNullV r then .ok (isNullV l && isNullV r)
    else equalsList .integer l r
  | _ => scalarEquals dt l r

/-- `containsValue` from the source: membership via per-element-type
equality. -/
def containsValue (dt : DataType) (haystack : List GoVal) (needle : GoVal) : Except String Bool :=
  match haystack with
  | [] => .ok false
  | candidate :: rest =>
    match equals (elementDataType dt) candidate needle with
    | .error e => .error e
    | .ok true => .ok true
    | .ok false => containsValue dt rest needle

/-- `compare` from the source (renamed: a bare `compare` collides with
`Ord.compare` in name resolution): ordering operators. A null on either
side is `false` without error. INTEGER values are converted to `float64`
before comparison (the `l`/`r` assignments in the source); DECIMAL and
the time types compare exactly and return from inside the switch. -/
def compareValues (dt : DataType) (op : OperatorType) (l r : GoVal) : Except String Bool :=
  if isNullV l || isNullV r then .ok false
  else
    match dt with
    | .integer =>
      match l, r with
      | .int lv, .int rv =>
        let lf := floatOfInt64 lv
        let rf := floatOfInt64 rv
        match op with
        | .greater => .ok (decide (lf > rf))
        | .greaterOrEqual => .ok (decide (lf ≥ rf))
        | .less => .ok (decide (lf < rf))
        | .lessOrEqual => .ok (decide (lf ≤ rf))
        | _ => .error "unsupported operator"
      | _, _ => .error "values not int64"
    | .decimal =>
      match l, r with
      | .dec ma ea, .dec mb eb =>
        match op with
        | .greater => .ok (dyCmp ma ea mb eb == .gt)
        | .greaterOrEqual => .ok (dyCmp ma ea mb eb != .lt)
        | .less => .ok (dyCmp ma ea mb eb == .lt)
        | .lessOrEqual => .ok (dyCmp ma ea mb eb != .gt)
        | _ => .error "unsupported operator"
      | _, _ => .error "values not decimal"
    | .date | .datetime =>
      match l, r with
      | .time lt, .time rt =>
        match op with
        | .greater => .ok (decide (lt > rt))
        | .greaterOrEqual => .ok (decide (lt ≥ rt))
        | .less => .ok (decide (lt < rt))
        | .lessOrEqual => .ok (decide (lt ≤ rt))
        | _ => .error "unsupported operator"
      | _, _ => .error "values not time.Time"
    | _ => .error "operator only supported for numeric columns"

/-- `evaluateScalarOperator` from the source. -/
def evaluateScalarOperator (dt : DataType) (op : OperatorType) (actual expected : GoVal) :
    Except String Bool :=
  match op with
  | .equal => equals dt actual expected
  | .notEqual => notE (equals dt actual expected)
  | .greater | .greaterOrEqual | .less | .lessOrEqual => compareValues dt op actual expected
  | .opIn =>
    match expected with
    | .list expectedSlice => containsValue dt expectedSlice actual
    | _ => .error "operator IN expects slice value"
  | .notIn =>
    match expected with
    | .list expectedSlice => notE (containsValue dt expectedSlice actual)
    | _ => .error "operator NOT_IN expects slice value"
  | .matchesRegex =>
    if isNullV actual then .ok false
    else
      match expected with
      | .regex re =>
        match actual with
        | .str value => .ok (re value)
        | _ => .error "operator MATCHES_REGEX expects string actual"
      | _ => .error "operator MATCHES_REGEX expects compiled regexp"
  | .isNull => .ok (isNullV actual)
  | .isNotNull => .ok (!isNullV actual)
  | _ => .error "unsupported operator"

/-- The loop of the `ANY_CONTAINED_IN` branch. -/
def anyContainedLoop (dt : DataType) (expectedSlice : List GoVal) : List GoVal → Except String Bool
  | [] => .ok false
  | v :: vs =>
    match containsValue dt expectedSlice v with
    | .error e => .error e
    | .ok true => .ok true
    | .ok false => anyContainedLoop dt expectedSlice vs

/-- The loop of the `ALL_CONTAINED_IN` branch. -/
def allContainedLoop (dt : DataType) (expectedSlice : List GoVal) : List GoVal → Except String Bool
  | [] => .ok true
  | v :: vs =>
    match containsValue dt expectedSlice v with
    | .error e => .error e
    | .ok false => .ok false
    | .ok true => allContainedLoop dt expectedSlice vs

/-- The loop of the `CONTAINS_ALL` branch (roles of the sides swapped). -/
def containsAllLoop (dt : DataType) (actual : List GoVal) : List GoVal → Except String Bool
  | [] => .ok true
  | v :: vs =>
    match containsValue dt actual v with
    | .error e => .error e
    | .ok false => .ok false
    | .ok true => containsAllLoop dt actual vs

/-- The loop of the `ALL_EQUAL` branch. -/
def allEqualLoop (dt : DataType) (expected : GoVal) : List GoVal → Except String Bool
  | [] => .ok true
  | v :: vs =>
    match equals dt v expected with
    | .error e => .error e
    | .ok false => .ok false
    | .ok true => allEqualLoop dt expected vs

/-- `evaluateCollectionOperator` from the source. The negated forms
evaluate the positive form and negate. -/
def evaluateCollectionOperator (dt : DataType) (op : OperatorType) (actual : List GoVal)
    (expected : GoVal) : Except String Bool :=
  match op with
  | .anyContained =>
    match expected with
    | .list expectedSlice => anyContainedLoop dt expectedSlice actual
    | _ => .error "operator ANY_CONTAINED_IN expects slice value"
  | .notAnyContained =>
    match expected with
    | .list expectedSlice => notE (anyContainedLoop dt expectedSlice actual)
    | _ => .error "operator ANY_CONTAINED_IN expects slice value"
  | .allContained =>
    match expected with
    | .list expectedSlice => allContainedLoop dt expectedSlice actual
    | _ => .error "operator ALL_CONTAINED_IN expects slice value"
  | .notAllContained =>
    match expected with
    | .list expectedSlice => notE (allContainedLoop dt expectedSlice actual)
    | _ => .error "operator ALL_CONTAINED_IN expects slice value"
  | .containsAll =>
    match expected with
    | .list expectedSlice => containsAllLoop dt actual expectedSlice
    | _ => .error "operator CONTAINS_ALL expects slice value"
  | .notContainsAll =>
    match expected with
    | .list expectedSlice => notE (containsAllLoop dt actual expectedSlice)
    | _ => .error "operator CONTAINS_ALL expects slice value"
  | .allEqual =>
    if isNullV expected then .error "operator ALL_EQUAL expects a scalar value"
    else
      match allEqualLoop dt expected actual with
      | .error e => .error e
      | .ok false => .ok false
      | .ok true => .ok (decide (actual.length > 0))
  | _ => .error "unsupported operator"

/-- `evaluateCell` from the source: route on the actual side's arity,
sanitize the actual value, then evaluate the operator. -/
def evaluateCell (dt : DataType) (op : OperatorType) (actual expected : GoVal) :
    Except String Bool :=
  if expectsActualCollection op then
    match sanitizeActualCollection dt actual with
    | .error e => .error e
    | .ok actualSlice => evaluateCollectionOperator dt op actualSlice expected
  else
    match sanitizeActualValue dt actual with
    | .error e => .error e
    | .ok actualValue => evaluateScalarOperator dt op actualValue expected

/-! ### Rows, cloning and materialization (`row.go`, clone helpers) -/

/-- `EvalCell` from the source; `dataType` is the unexported field resolved
at row preparation (`none` is Go's zero value `""`). -/
structure EvalCell where
  column : String
  operator : OperatorType
  value : GoVal
  dataType : Option DataType

/-- `ReturnCell` from the source. -/
structure ReturnCell where
  column : String
  value : GoVal
  dataType : Option DataType

/-- `Row` from the source. -/
structure Row where
  evalCells : List EvalCell
  returnCells : List ReturnCell
  ruleID : String
  comments : String
  number : Int

/-- An input record `map[string]any`, as an association list. -/
abbrev Input := List (String × GoVal)

/-- Go map read `input[c]`: the zero value `nil` when the key is absent. -/
def lookupGo (input : Input) (c : String) : GoVal :=
  match List.find? (fun p => p.fst == c) input with
  | some p => p.snd
  | none => .null

/-- The cell loop of `Row.matches`: cells in declared order, a missing
resolved data type is an error naming the row and column, evaluation
errors are wrapped the same way, and the first non-matching cell returns
`false` without touching the remaining cells. -/
def matchCells (rnum : Int) (input : Input) : List EvalCell → Except String Bool
  | [] => .ok true
  | cell :: rest =>
    match cell.dataType with
    | none =>
      .error ("row " ++ toString rnum ++ " column " ++ cell.column ++ " missing data type metadata")
    | some dt =>
      match evaluateCell dt cell.operator (lookupGo input cell.column) cell.value with
      | .error e => .error ("row " ++ toString rnum ++ " column " ++ cell.column ++ ": " ++ e)
      | .ok false => .ok false
      | .ok true => matchCells rnum input rest

/-- `Row.matches` from the source. -/
def Row.matches (r : Row) (input : Input) : Except String Bool :=
  matchCells r.number input r.evalCells

/-- `cloneDecimal` from the source: a fresh `big.Float` with the same
value (value-identity in the embedding). -/
def cloneDecimal (m e : Int) : GoVal := .dec m e

mutual

/-- `cloneArbitraryValue` from the source: deep-copy decimals and slices,
pass every other value through. -/
def cloneArbitraryValue : GoVal → GoVal
  | .dec m e => cloneDecimal m e
  | .list vs => .list (cloneAnySlice vs)
  | v => v

/-- `cloneAnySlice` from the source. -/
def cloneAnySlice : List GoVal → List GoVal
  | [] => []
  | v :: vs => cloneArbitraryValue v :: cloneAnySlice vs

end

/-- `cloneValueForType` from the source. -/
def cloneValueForType (v : GoVal) (dt : Option DataType) : GoVal :=
  if dt == some .decimal then
    match v with
    | .dec m e => cloneDecimal m e
    | _ => v
  else if dt == some .listString || dt == some .listInteger then
    match v with
    | .list vs => .list (cloneAnySlice vs)
    | _ => v
  else v

/-- A Go `map[string]any` write `m[k] = v`: overwrite an existing key,
otherwise add the binding. -/
def mapInsert (m : List (String × GoVal)) (k : String) (v : GoVal) : List (String × GoVal) :=
  if m.any (fun p => p.fst == k) then
    m.map (fun p => if p.fst == k then (k, v) else p)
  else m ++ [(k, v)]

/-- `Row.materializeReturnValues` from the source: build the output map
from the return cells, cloning each value for its type. -/
def Row.materializeReturnValues (r : Row) : List (String × GoVal) :=
  r.returnCells.foldl (fun values cell =>
    mapInsert values cell.column (cloneValueForType cell.value cell.dataType)) []

/-- `cloneMap` from the source (the `nil` case is the `Option.none` of the
caller-supplied fallback). -/
def cloneMap (src : List (String × GoVal)) : List (String × GoVal) :=
  src.map (fun p => (p.fst, cloneArbitraryValue p.snd))

/-! ### Decision table orchestration (`table.go`) -/

/-- `Column` from the source (already validated by construction, so its
`DataType` is one of the closed tags). -/
structure Column where
  name : String
  type : ColumnType
  dataType : DataType

/-- `MatchedRow` from the source. -/
structure MatchedRow where
  values : List (String × GoVal)
  ruleID : String
  comments : String
  rowNumber : Int

/-- `DecisionTable` from the source; the two column maps are name-keyed
association lists. -/
structure DecisionTable where
  name : String
  conditionColumns : List (String × Column)
  outputColumns : List (String × Column)
  rows : List Row
  defaultRow : Option Row
  matchPolicy : MatchPolicy
  noMatchPolicy : NoMatchPolicy
  rowValidation : RowValidationPolicy

/-- Go map read on a column map. -/
def lookupColumn (cols : List (String × Column)) (name : String) : Option Column :=
  match List.find? (fun p => p.fst == name) cols with
  | some p => some p.snd
  | none => none

/-- The model of `regexp.Compile`: the external regex engine is abstracted
to a literal-substring matcher and compilation always succeeds (no claim
depends on regex semantics or on compile failures). -/
def regexpCompile (pattern : String) : Except String (String → Bool) :=
  .ok (fun s => decide (List.IsInfix pattern.data s.data))

/-- `sanitizeExpectedValue` from the source: regex patterns are compiled,
nullity operators keep a `true` flag, collection-valued operators
sanitize a collection, the rest coerce a primitive. -/
def sanitizeExpectedValue (dt : DataType) (op : OperatorType) (raw : GoVal) :
    Except String GoVal :=
  match op with
  | .matchesRegex =>
    if isNullV raw then .error "operator MATCHES_REGEX requires a pattern"
    else
      match coercePrimitive .string raw with
      | .error e => .error e
      | .ok pattern =>
        match pattern with
        | .str s =>
          match regexpCompile s with
          | .error e => .error e
          | .ok re => .ok (.regex re)
        | _ => .error "operator MATCHES_REGEX requires string pattern"
  | .isNull | .isNotNull =>
    if isNullV raw then .ok (.bool true)
    else
      match toBoolean raw with
      | .error e => .error e
      | .ok false => .error "operator requires value true"
      | .ok true => .ok (.bool true)
  | op =>
    if requiresCollectionValue op then
      match sanitizeCollection dt raw with
      | .error e => .error e
      | .ok values => .ok (.list values)
    else coercePrimitive dt raw

/-- The evaluation-cell loop of `prepareRow`: resolve the column, reject a
missing operator, sanitize the expected value, stamp the resolved data
type. -/
def prepareEvalCells (dt : DecisionTable) : List EvalCell → Except String (List EvalCell)
  | [] => .ok []
  | cell :: rest =>
    match lookupColumn dt.conditionColumns cell.column with
    | none => .error ("unknown column " ++ cell.column)
    | some col =>
      if cell.operator == .empty then .error ("column " ++ col.name ++ " missing operator")
      else
        match sanitizeExpectedValue col.dataType cell.operator cell.value with
        | .error e => .error ("column " ++ col.name ++ ": " ++ e)
        | .ok value =>
          match prepareEvalCells dt rest with
          | .error e => .error e
          | .ok prepared =>
            .ok ({ column := col.name, operator := cell.operator, value := value,
                   dataType := some col.dataType } :: prepared)

/-- The return-cell loop of `prepareRow`. -/
def prepareReturnCells (dt : DecisionTable) : List ReturnCell → Except String (List ReturnCell)
  | [] => .ok []
  | cell :: rest =>
    match lookupColumn dt.outputColumns cell.column with
    | none => .error ("unknown column " ++ cell.column)
    | some col =>
      match sanitizeReturnValue col.dataType cell.value with
      | .error e => .error ("return column " ++ col.name ++ ": " ++ e)
      | .ok value =>
        match prepareReturnCells dt rest with
        | .error e => .error e
        | .ok prepared =>
          .ok ({ column := col.name, value := value, dataType := some col.dataType } :: prepared)

/-- `DecisionTable.prepareRow` from the source (the `dt == nil` guard has
no counterpart: the embedding has no nil receivers). -/
def prepareRow (dt : DecisionTable) (row : Row) (requireEval requireReturn : Bool) :
    Except String Row :=
  if requireEval && row.evalCells.isEmpty then
    .error "row must contain at least one evaluation cell"
  else if requireReturn && row.returnCells.isEmpty then
    .error "row must contain at least one return cell"
  else
    match prepareEvalCells dt row.evalCells with
    | .error e => .error e
    | .ok evalCells =>
      match prepareReturnCells dt row.returnCells with
      | .error e => .error e
      | .ok returnCells =>
        .ok { evalCells := evalCells, returnCells := returnCells,
              ruleID := row.ruleID, comments := row.comments, number := row.number }

/-- `DecisionTable.AddRow` from the source, as a state transformer: the
returned table is the receiver's state after the call, paired with the
returned error. On failure the receiver is untouched. -/
def AddRow (dt : DecisionTable) (row : Row) : DecisionTable × Option String :=
  match prepareRow dt row (dt.rowValidation == .strict) (dt.rowValidation == .strict) with
  | .error e => (dt, some e)
  | .ok prepared =>
    let prepared :=
      if prepared.number ≤ 0 then { prepared with number := (dt.rows.length : Int) + 1 }
      else prepared
    ({ dt with rows := dt.rows ++ [prepared] }, none)

/-- `DecisionTable.SetDefaultRow` from the source, as a state transformer.
The policy guard mirrors the source even though both policy values pass
it. -/
def SetDefaultRow (dt : DecisionTable) (row : Row) : DecisionTable × Option String :=
  if dt.noMatchPolicy != .returnDefault && dt.noMatchPolicy != .throwError then
    (dt, some "default rows are only valid when using RETURN_DEFAULT or THROW_ERROR no-match policy")
  else if row.evalCells.length > 0 then
    (dt, some "default rows cannot contain evaluation cells")
  else
    match prepareRow dt row false true with
    | .error e => (dt, some e)
    | .ok prepared =>
      let prepared :=
        if prepared.number ≤ 0 then { prepared with number := (dt.rows.length : Int) + 1 }
        else prepared
      ({ dt with defaultRow := some prepared }, none)

/-- Build the `MatchedRow` for a matching (or default) row, as the struct
literal inside `Evaluate` does. -/
def toMatchedRow (r : Row) : MatchedRow :=
  { values := r.materializeReturnValues, ruleID := r.ruleID,
    comments := r.comments, rowNumber := r.number }

/-- The row loop of `Evaluate`: accumulate matches in declaration order;
`FIRST` breaks after a match (the post-loop no-match handling cannot fire
since the accumulator is non-empty); `UNIQUE` fails on the second
match. -/
def evalLoop (mp : MatchPolicy) (input : Input) : List Row → List MatchedRow →
    Except String (List MatchedRow)
  | [], acc => .ok acc
  | r :: rest, acc =>
    match r.matches input with
    | .error e => .error e
    | .ok false => evalLoop mp input rest acc
    | .ok true =>
      let acc := acc ++ [toMatchedRow r]
      if mp == .first then .ok acc
      else if mp == .unique && acc.length > 1 then
        .error ("match policy UNIQUE expected exactly one match, found at least " ++
          toString acc.length)
      else evalLoop mp input rest acc

/-- `DecisionTable.Evaluate` from the source: the row loop followed by the
zero-match policy switch. A caller-supplied fallback entry keeps the Go
zero values: empty rule id and comments, row number `0`. -/
def Evaluate (dt : DecisionTable) (input : Input)
    (defaultReturn : Option (List (String × GoVal))) : Except String (List MatchedRow) :=
  match evalLoop dt.matchPolicy input dt.rows [] with
  | .error e => .error e
  | .ok ms =>
    if ms.length == 0 then
      match dt.noMatchPolicy with
      | .returnDefault =>
        match dt.defaultRow with
        | some d => .ok (ms ++ [toMatchedRow d])
        | none =>
          match defaultReturn with
          | some m => .ok (ms ++ [{ values := cloneMap m, ruleID := "", comments := "",
                                    rowNumber := 0 }])
          | none => .ok ms
      | .throwError =>
        match dt.defaultRow with
        | some d => .ok (ms ++ [toMatchedRow d])
        | none => .error "no rules matched and no default rule configured"
    else .ok ms

/-- A sequence of `AddRow` calls, aborting at the first error (the pattern
of the loaders and of every caller in the repository's tests). -/
def addRows : DecisionTable → List Row → DecisionTable × Option String
  | dt, [] => (dt, none)
  | dt, r :: rs =>
    match AddRow dt r with
    | (dt2, none) => addRows dt2 rs
    | (dt2, some e) => (dt2, some e)

/-- The row matched the input (its `matches` returned `ok true`). -/
def rowHits (input : Input) (r : Row) : Bool :=
  match r.matches input with
  | .ok true => true
  | _ => false

/-- The row's `matches` returned without error. -/
def rowSucceeds (input : Input) (r : Row) : Prop :=
  ∃ b, r.matches input = .ok b

/-! ### Concrete fixtures for witnesses and counterexamples -/

/-- A small validated column schema shared by the concrete tables below. -/
def fixtureCondCols : List (String × Column) :=
  [("age", { name := "age", type := .condition, dataType := .integer }),
   ("flag", { name := "flag", type := .condition, dataType := .integer })]

/-- Output columns of the concrete tables. -/
def fixtureOutCols : List (String × Column) :=
  [("tier", { name := "tier", type := .conclusion, dataType := .string })]

/-- An empty table over the fixture schema with the given policies. -/
def fixtureTable (mp : MatchPolicy) (nmp : NoMatchPolicy) : DecisionTable :=
  { name := "t", conditionColumns := fixtureCondCols, outputColumns := fixtureOutCols,
    rows := [], defaultRow := none, matchPolicy := mp, noMatchPolicy := nmp,
    rowValidation := .strict }

/-- A prepared row matching only inputs with `age = 5`. -/
def w1Row : Row :=
  { evalCells := [{ column := "age", operator := .equal, value := .int 5,
                    dataType := some .integer }],
    returnCells := [{ column := "tier", value := .str "standard", dataType := some .string }],
    ruleID := "r1", comments := "", number := 1 }

/-- Table for the C1 witness: one non-matching row, RETURN_DEFAULT, no
default row. -/
def w1DT : DecisionTable := { fixtureTable .all .returnDefault with rows := [w1Row] }

/-- Input on which `w1Row` does not match. -/
def w1Input : Input := [("age", .int 4)]

/-- A prepared default row over the fixture schema. -/
def fixtureDefaultRow (n : Int) : Row :=
  { evalCells := [],
    returnCells := [{ column := "tier", value := .str "fallback", dataType := some .string }],
    ruleID := "default", comments := "", number := n }

/-- A prepared row that matches every input missing the `flag` key. -/
def hitRow (n : Int) : Row :=
  { evalCells := [{ column := "flag", operator := .isNull, value := .bool true,
                    dataType := some .integer }],
    returnCells := [{ column := "tier", value := .str "hit", dataType := some .string }],
    ruleID := "hit" ++ toString n, comments := "", number := n }

/-- C2 counterexample table A: UNIQUE + THROW_ERROR, no rows, no default. -/
def cexUniqA : DecisionTable := fixtureTable .unique .throwError

/-- C2 counterexample table B: UNIQUE + RETURN_DEFAULT with a default row
and no rows. -/
def cexUniqB : DecisionTable :=
  { fixtureTable .unique .returnDefault with defaultRow := some (fixtureDefaultRow 7) }

/-- C2 witness table: UNIQUE with two always-matching rows. -/
def wUniqDT : DecisionTable :=
  { fixtureTable .unique .throwError with rows := [hitRow 1, hitRow 2] }

/-- A raw (unprepared) row carrying an explicit row number, used to build
the C7 counterexample through `AddRow`. -/
def rawHitRow (n : Int) : Row :=
  { evalCells := [{ column := "flag", operator := .isNull, value := .bool true,
                    dataType := none }],
    returnCells := [{ column := "tier", value := .str "hit", dataType := none }],
    ruleID := "raw" ++ toString n, comments := "", number := n }

/-- C7 counterexample: rows registered through `AddRow` with explicit
out-of-order numbers `5` then `3`. -/
def cexAllDT : DecisionTable :=
  (addRows (fixtureTable .all .throwError) [rawHitRow 5, rawHitRow 3]).fst

/-- C7 counterexample (second flaw): zero matching rows with a configured
default row numbered `7`. -/
def cexAllDefaultDT : DecisionTable :=
  { fixtureTable .all .returnDefault with defaultRow := some (fixtureDefaultRow 7) }

/-- C7 witness: one row registered through `AddRow` without a row number. -/
def wAllDT : DecisionTable :=
  (addRows (fixtureTable .all .throwError) [rawHitRow 0]).fst

/-- The stored form of `rawHitRow n` after preparation with number `k`. -/
def storedHitRow (k : Int) (n : Int) : Row :=
  { evalCells := [{ column := "flag", operator := .isNull, value := .bool true,
                    dataType := some .integer }],
    returnCells := [{ column := "tier", value := .str "hit", dataType := some .string }],
    ruleID := "raw" ++ toString n, comments := "", number := k }

/-- C8 witness: a raw row referencing an unknown condition column. -/
def wBadRow : Row :=
  { evalCells := [{ column := "ghost", operator := .equal, value := .int 1, dataType := none }],
    returnCells := [{ column := "tier", value := .str "x", dataType := none }],
    ruleID := "bad", comments := "", number := 0 }

/-- C8 witness: a raw default row illegally carrying an evaluation cell. -/
def wBadDefault : Row :=
  { evalCells := [{ column := "age", operator := .equal, value := .int 1, dataType := none }],
    returnCells := [{ column := "tier", value := .str "x", dataType := none }],
    ruleID := "baddefault", comments := "", number := 0 }

/-- C8 witness table. -/
def w8DT : DecisionTable := fixtureTable .all .throwError

/-- C5 witness: a row whose first cell does not match and whose second
cell would fail with a type error if it were evaluated. -/
def w5Row : Row :=
  { evalCells := [{ column := "age", operator := .equal, value := .int 5,
                    dataType := some .integer },
                  { column := "age", operator := .greater, value := .str "oops",
                    dataType := some .string }],
    returnCells := [{ column := "tier", value := .str "x", dataType := some .string }],
    ruleID := "w5", comments := "", number := 9 }

/-- C5 witness: a row whose second cell lacks a resolved data type. -/
def w5RowNoType : Row :=
  { evalCells := [{ column := "age", operator := .isNotNull, value := .bool true,
                    dataType := some .integer },
                  { column := "flag", operator := .equal, value := .int 1,
                    dataType := none }],
    returnCells := [{ column := "tier", value := .str "x", dataType := some .string }],
    ruleID := "w5b", comments := "", number := 4 }

/-! ### Helper lemmas -/

/-- A value other than `null` is not null. -/
theorem isNullV_eq_false_of_ne {v : GoVal} (h : v ≠ .null) : isNullV v = false := by
  cases v <;> simp [isNullV] at h ⊢

/-- Reading a key absent from the input map yields the Go zero value. -/
theorem lookupGo_eq_null {input : Input} {c : String} (h : ∀ p ∈ input, p.fst ≠ c) :
    lookupGo input c = .null := by
  unfold lookupGo
  rw [List.find?_eq_none.mpr]
  intro p hp
  simpa using h p hp

/-- If the `ALL_EQUAL` loop succeeds with `true`, every element compares
equal to the expected scalar. -/
theorem allEqualLoop_true {dt : DataType} {expected : GoVal} {l : List GoVal}
    (h : allEqualLoop dt expected l = .ok true) :
    ∀ v ∈ l, equals dt v expected = .ok true := by
  induction l with
  | nil => simp
  | cons a rest ih =>
    intro v hv
    unfold allEqualLoop at h
    rcases heq : equals dt a expected with e | b
    · rw [heq] at h; exact absurd h (by simp)
    · rw [heq] at h
      cases b
      · exact absurd h (by simp)
      · rcases List.mem_cons.mp hv with hva | hvr
        · subst hva; exact heq
        · exact ih h v hvr

/-- When no row matches, the evaluation loop returns its accumulator. -/
theorem evalLoop_none (mp : MatchPolicy) (input : Input) (rows : List Row)
    (acc : List MatchedRow) (h : ∀ r ∈ rows, r.matches input = .ok false) :
    evalLoop mp input rows acc = .ok acc := by
  induction rows with
  | nil => rfl
  | cons r rest ih =>
    have hr := h r (List.mem_cons_self r rest)
    unfold evalLoop
    rw [hr]
    exact ih fun r2 hr2 => h r2 (List.mem_cons_of_mem r hr2)

/-! ### Claim theorems -/

/-- C10: for every data type and every ordering operator, a null on either
side makes `compare` (and the scalar evaluator built on it) return
`ok false` — a null never satisfies an ordering comparison and never
aborts evaluation. -/
theorem ordering_null_is_false (dt : DataType) (op : OperatorType) (l r : GoVal)
    (hop : op = .greater ∨ op = .greaterOrEqual ∨ op = .less ∨ op = .lessOrEqual)
    (hnull : l = .null ∨ r = .null) :
    compareValues dt op l r = .ok false ∧ evaluateScalarOperator dt op l r = .ok false := by
  have hc : compareValues dt op l r = .ok false := by
    unfold compareValues
    rcases hnull with h | h <;> subst h <;> simp [isNullV]
  refine ⟨hc, ?_⟩
  rcases hop with h | h | h | h <;> subst h <;> simpa [evaluateScalarOperator] using hc

/-- Witness for C10 at a concrete ordering operator and null operand. -/
theorem ordering_null_is_false_witness :
    (OperatorType.greater = .greater ∨ OperatorType.greater = .greaterOrEqual ∨
      OperatorType.greater = .less ∨ OperatorType.greater = .lessOrEqual)
    ∧ (GoVal.null = .null ∨ GoVal.int 5 = .null)
    ∧ compareValues .integer .greater .null (.int 5) = .ok false
    ∧ evaluateScalarOperator .integer .greater .null (.int 5) = .ok false := by
  refine ⟨Or.inl rfl, Or.inl rfl, ?_⟩
  exact ordering_null_is_false .integer .greater .null (.int 5) (Or.inl rfl) (Or.inl rfl)

/-- C4: for every data type and expected collection, `ANY_CONTAINED_IN` on
an empty actual list is `false` and `ALL_CONTAINED_IN` on an empty actual
list is `true`; and `ALL_EQUAL` returns `true` only when the actual list
is non-empty and every element equals the single expected scalar. -/
theorem collection_empty_and_allEqual (dt : DataType) (expectedSlice : List GoVal) :
    evaluateCollectionOperator dt .anyContained [] (.list expectedSlice) = .ok false
    ∧ evaluateCollectionOperator dt .allContained [] (.list expectedSlice) = .ok true
    ∧ ∀ (actual : List GoVal) (expected : GoVal),
        evaluateCollectionOperator dt .allEqual actual expected = .ok true →
        actual ≠ [] ∧ ∀ v ∈ actual, equals dt v expected = .ok true := by
  refine ⟨rfl, rfl, ?_⟩
  intro actual expected h
  unfold evaluateCollectionOperator at h
  by_cases hn : isNullV expected
  · rw [if_pos hn] at h; exact absurd h (by simp)
  · rw [if_neg hn] at h
    rcases hl : allEqualLoop dt expected actual with e | b
    · rw [hl] at h; exact absurd h (by simp)
    · rw [hl] at h
      cases b
      · exact absurd h (by simp)
      · refine ⟨?_, allEqualLoop_true hl⟩
        simp only [Except.ok.injEq, decide_eq_true_eq] at h
        intro hemp
        subst hemp
        simp at h

/-- Witness for C4's `ALL_EQUAL` implication at a concrete non-empty list. -/
theorem collection_empty_and_allEqual_witness :
    evaluateCollectionOperator .integer .allEqual [.int 1, .int 1] (.int 1) = .ok true
    ∧ ([GoVal.int 1, GoVal.int 1] ≠ []
       ∧ ∀ v ∈ [GoVal.int 1, GoVal.int 1], equals .integer v (.int 1) = .ok true) := by
  refine ⟨rfl, ?_⟩
  exact (collection_empty_and_allEqual .integer []).2.2 [.int 1, .int 1] (.int 1) rfl

/-- C9: a condition column entirely absent from the input record is a null
actual value, not an error: `IS_NULL` on it matches, `IS_NOT_NULL` does
not, `EQUAL` against a non-null expected value is `false`, and none of
these raises an error during evaluation. -/
theorem missing_column_is_null_actual (dtype : DataType) (input : Input) (c : String)
    (rid cm : String) (n : Int) (expected : GoVal)
    (hmiss : ∀ p ∈ input, p.fst ≠ c) (hexp : expected ≠ .null) :
    Row.matches { evalCells := [{ column := c, operator := .isNull, value := .bool true,
                                  dataType := some dtype }],
                  returnCells := [], ruleID := rid, comments := cm, number := n } input = .ok true
    ∧ Row.matches { evalCells := [{ column := c, operator := .isNotNull, value := .bool true,
                                    dataType := some dtype }],
                    returnCells := [], ruleID := rid, comments := cm, number := n } input
        = .ok false
    ∧ Row.matches { evalCells := [{ column := c, operator := .equal, value := expected,
                                    dataType := some dtype }],
                    returnCells := [], ruleID := rid, comments := cm, number := n } input
        = .ok false := by
  have hl := lookupGo_eq_null hmiss
  have hne := isNullV_eq_false_of_ne hexp
  refine ⟨?_, ?_, ?_⟩ <;>
    simp [Row.matches, matchCells, evaluateCell, hl, expectsActualCollection,
      sanitizeActualValue, coercePrimitive, isNullV, evaluateScalarOperator, equals,
      scalarEquals, hne]
  cases dtype <;> simp [equalsList, isNullV, hne]

/-- Witness for C9 at a concrete input lacking the column. -/
theorem missing_column_is_null_actual_witness :
    (∀ p ∈ ([("age", GoVal.int 4)] : Input), p.fst ≠ "flag")
    ∧ Row.matches { evalCells := [{ column := "flag", operator := .isNull, value := .bool true,
                                    dataType := some .integer }],
                    returnCells := [], ruleID := "w", comments := "", number := 1 }
        [("age", .int 4)] = .ok true
    ∧ Row.matches { evalCells := [{ column := "flag", operator := .isNotNull,
                                    value := .bool true, dataType := some .integer }],
                    returnCells := [], ruleID := "w", comments := "", number := 1 }
        [("age", .int 4)] = .ok false
    ∧ Row.matches { evalCells := [{ column := "flag", operator := .equal, value := .int 7,
                                    dataType := some .integer }],
                    returnCells := [], ruleID := "w", comments := "", number := 1 }
        [("age", .int 4)] = .ok false := by
  have hmiss : ∀ p ∈ ([("age", GoVal.int 4)] : Input), p.fst ≠ "flag" := by
    intro p hp
    simp at hp
    simp [hp]
  refine ⟨hmiss, ?_⟩
  exact missing_column_is_null_actual .integer [("age", .int 4)] "flag" "w" "" 1 (.int 7)
    hmiss (by simp)

/-- C6 counterexample: coercing the empty string to the STRING data type
succeeds and returns the empty string itself — it is not a coercion
error. -/
theorem coerce_empty_string_accepted :
    coercePrimitive .string (.str "") = .ok (.str "")
    ∧ ∀ e, coercePrimitive .string (.str "") ≠ .error e := by
  exact ⟨rfl, by intro e h; exact absurd h (by simp [coercePrimitive, coerceScalar, isNullV, sprint])⟩

/-- C6 (amended): for every target data type other than STRING, coercing a
non-null raw string that is empty after trimming fails with a coercion
error (for the STRING target, `fmt.Sprint` returns the string — empty or
not — unchanged). -/
theorem coerce_trimmed_empty_fails (dt : DataType) (hdt : dt ≠ .string)
    (s : String) (hs : trimS s = "") :
    ∃ e, coercePrimitive dt (.str s) = .error e := by
  cases dt with
  | string => exact absurd rfl hdt
  | integer =>
    exact ⟨"cannot convert empty string to int64",
      by simp [coercePrimitive, coerceScalar, isNullV, toInt64, hs, Except.map]⟩
  | decimal =>
    exact ⟨"cannot convert empty string to decimal",
      by simp [coercePrimitive, coerceScalar, isNullV, toBigFloat, hs]⟩
  | boolean =>
    exact ⟨"cannot convert empty string to bool",
      by simp [coercePrimitive, coerceScalar, isNullV, toBoolean, hs, Except.map]⟩
  | date =>
    exact ⟨"cannot convert empty string value",
      by simp [coercePrimitive, coerceScalar, isNullV, parseISODate, toTrimmedString, hs]⟩
  | datetime =>
    exact ⟨"cannot convert empty string value",
      by simp [coercePrimitive, coerceScalar, isNullV, parseISODateTime, toTrimmedString, hs]⟩
  | listString =>
    exact ⟨"value is not a slice or array",
      by simp [coercePrimitive, isNullV, coerceList, toInterfaceSlice, Except.map]⟩
  | listInteger =>
    exact ⟨"value is not a slice or array",
      by simp [coercePrimitive, isNullV, coerceList, toInterfaceSlice, Except.map]⟩

/-- Witness for the amended C6 at the INTEGER type and a whitespace
string. -/
theorem coerce_trimmed_empty_fails_witness :
    (DataType.integer ≠ .string) ∧ trimS " " = ""
    ∧ ∃ e, coercePrimitive .integer (.str " ") = .error e := by
  exact ⟨by simp, rfl, coerce_trimmed_empty_fails .integer (by simp) " " rfl⟩

/-- C3: INTEGER ordering is *not* exact 64-bit comparison — the source
converts both `int64` operands to `float64`, so `9007199254740993 <=
9007199254740992` evaluates to `true` although the exact integer
comparison is false (both collapse to `2 ^ 53`). The DECIMAL half of the
claim does hold: comparison at the 128-bit significand makes the
condition `amount >= "99.999999999999999999"` match the input
`"100.000000000000000001"`, and the same operator rejects the operands
swapped. -/
theorem integer_ordering_not_exact :
    compareValues .integer .lessOrEqual (.int 9007199254740993) (.int 9007199254740992)
      = .ok true
    ∧ ¬ ((9007199254740993 : Int) ≤ 9007199254740992)
    ∧ (sanitizeExpectedValue .decimal .greaterOrEqual (.str "99.999999999999999999")).bind
        (fun expected =>
          evaluateCell .decimal .greaterOrEqual (.str "100.000000000000000001") expected)
        = .ok true
    ∧ (sanitizeExpectedValue .decimal .greaterOrEqual (.str "100.000000000000000001")).bind
        (fun expected =>
          evaluateCell .decimal .greaterOrEqual (.str "99.999999999999999999") expected)
        = .ok false := by
  exact ⟨rfl, by decide, rfl, rfl⟩

/-- C8: `AddRow` and `SetDefaultRow` are atomic on failure — whenever the
call reports an error (in particular when row sanitization fails), the
table state it leaves behind is exactly the state before the call:
stored rows, default row and columns are all untouched. -/
theorem addRow_atomic_on_failure (dt : DecisionTable) (row : Row) :
    ((AddRow dt row).snd.isSome → (AddRow dt row).fst = dt)
    ∧ ((SetDefaultRow dt row).snd.isSome → (SetDefaultRow dt row).fst = dt) := by
  constructor
  · intro h
    unfold AddRow at h ⊢
    rcases hp : prepareRow dt row (dt.rowValidation == .strict) (dt.rowValidation == .strict)
      with e | p
    · simp [hp]
    · rw [hp] at h
      simp at h
  · intro h
    unfold SetDefaultRow at h ⊢
    by_cases hpol : (dt.noMatchPolicy != .returnDefault && dt.noMatchPolicy != .throwError) = true
    · simp [hpol]
    · simp only [Bool.not_eq_true] at hpol
      rw [if_neg (by simp [hpol])] at h ⊢
      by_cases hev : row.evalCells.length > 0
      · simp [hev]
      · rw [if_neg hev] at h ⊢
        rcases hp : prepareRow dt row false true with e | p
        · simp [hp]
        · rw [hp] at h
          simp at h

/-- Witness for C8: a row over an unknown column fails `AddRow` and leaves
the table unchanged; a default row with an evaluation cell fails
`SetDefaultRow` and leaves the table unchanged. -/
theorem addRow_atomic_on_failure_witness :
    (AddRow w8DT wBadRow).snd.isSome = true
    ∧ (AddRow w8DT wBadRow).fst = w8DT
    ∧ (SetDefaultRow w8DT wBadDefault).snd.isSome = true
    ∧ (SetDefaultRow w8DT wBadDefault).fst = w8DT := by
  refine ⟨rfl, (addRow_atomic_on_failure w8DT wBadRow).1 rfl, rfl,
    (addRow_atomic_on_failure w8DT wBadDefault).2 rfl⟩

/-- The policy case analysis of `Evaluate` when no row matches. -/
theorem noMatchOutcome (dt : DecisionTable) (input : Input)
    (defaultReturn : Option (List (String × GoVal)))
    (h : ∀ r ∈ dt.rows, r.matches input = .ok false) :
    (dt.noMatchPolicy = .returnDefault →
       (∀ d, dt.defaultRow = some d →
          Evaluate dt input defaultReturn = .ok [toMatchedRow d])
       ∧ (dt.defaultRow = none →
            (∀ m, defaultReturn = some m →
               Evaluate dt input defaultReturn =
                 .ok [{ values := cloneMap m, ruleID := "", comments := "", rowNumber := 0 }])
            ∧ (defaultReturn = none → Evaluate dt input defaultReturn = .ok [])))
    ∧ (dt.noMatchPolicy = .throwError →
       (∀ d, dt.defaultRow = some d →
          Evaluate dt input defaultReturn = .ok [toMatchedRow d])
       ∧ (dt.defaultRow = none →
            Evaluate dt input defaultReturn =
              .error "no rules matched and no default rule configured")) := by
  have hloop := evalLoop_none dt.matchPolicy input dt.rows [] h
  constructor
  · intro hpol
    constructor
    · intro d hd
      unfold Evaluate
      rw [hloop, hpol, hd]
      simp
    · intro hd
      constructor
      · intro m hm
        unfold Evaluate
        rw [hloop, hpol, hd, hm]
        simp
      · intro hm
        unfold Evaluate
        rw [hloop, hpol, hd, hm]
        simp
  · intro hpol
    constructor
    · intro d hd
      unfold Evaluate
      rw [hloop, hpol, hd]
      simp
    · intro hd
      unfold Evaluate
      rw [hloop, hpol, hd]
      simp

/-- C1: when no row matches, `Evaluate` resolves by the no-match policy:
under RETURN_DEFAULT it prefers the configured default row's
materialized output, else the deep-cloned caller-supplied fallback map
as a single row-number-`0` entry, else the empty sequence; under
THROW_ERROR it prefers the configured default row, else fails with the
no-match error. -/
theorem evaluate_no_match_cases (dt : DecisionTable) (input : Input)
    (defaultReturn : Option (List (String × GoVal)))
    (h : ∀ r ∈ dt.rows, r.matches input = .ok false) :
    (dt.noMatchPolicy = .returnDefault →
       (∀ d, dt.defaultRow = some d →
          Evaluate dt input defaultReturn = .ok [toMatchedRow d])
       ∧ (dt.defaultRow = none →
            (∀ m, defaultReturn = some m →
               Evaluate dt input defaultReturn =
                 .ok [{ values := cloneMap m, ruleID := "", comments := "", rowNumber := 0 }])
            ∧ (defaultReturn = none → Evaluate dt input defaultReturn = .ok [])))
    ∧ (dt.noMatchPolicy = .throwError →
       (∀ d, dt.defaultRow = some d →
          Evaluate dt input defaultReturn = .ok [toMatchedRow d])
       ∧ (dt.defaultRow = none →
            Evaluate dt input defaultReturn =
              .error "no rules matched and no default rule configured")) :=
  noMatchOutcome dt input defaultReturn h

/-- Witness for C1: a table with one non-matching row, RETURN_DEFAULT, no
default row and no fallback map evaluates to the empty sequence. -/
theorem evaluate_no_match_cases_witness :
    (∀ r ∈ w1DT.rows, r.matches w1Input = .ok false)
    ∧ Evaluate w1DT w1Input none = .ok [] := by
  have h : ∀ r ∈ w1DT.rows, r.matches w1Input = .ok false := by
    intro r hr
    have : r = w1Row := by simpa [w1DT, fixtureTable] using hr
    subst this
    rfl
  exact ⟨h, (((evaluate_no_match_cases w1DT w1Input none h).1 rfl).2 rfl).2 rfl⟩

/-- Cells that all evaluate to `true` are consumed by the match loop
without affecting the remainder. -/
theorem matchCells_append_true (n : Int) (input : Input) (pre l : List EvalCell)
    (hpre : ∀ c ∈ pre, ∃ d, c.dataType = some d ∧
      evaluateCell d c.operator (lookupGo input c.column) c.value = .ok true) :
    matchCells n input (pre ++ l) = matchCells n input l := by
  induction pre with
  | nil => rfl
  | cons c rest ih =>
    obtain ⟨d, hd, htrue⟩ := hpre c (List.mem_cons_self c rest)
    have step : matchCells n input ((c :: rest) ++ l) = matchCells n input (rest ++ l) := by
      rw [List.cons_append]
      simp only [matchCells, hd, htrue]
    rw [step]
    exact ih fun c2 hc2 => hpre c2 (List.mem_cons_of_mem c hc2)

/-- C5: row matching is an ordered short-circuiting conjunction — once
every cell before a given cell has evaluated to `true`, that cell alone
decides: if it evaluates to `false`, `matches` returns `ok false` no
matter what the later cells contain (they are not evaluated); if its
resolved data type is missing, `matches` returns the error naming the
row number and the column, never a silent non-match. -/
theorem matches_short_circuits (r : Row) (input : Input) (pre : List EvalCell)
    (cell : EvalCell) (post : List EvalCell)
    (hsplit : r.evalCells = pre ++ cell :: post)
    (hpre : ∀ c ∈ pre, ∃ d, c.dataType = some d ∧
      evaluateCell d c.operator (lookupGo input c.column) c.value = .ok true) :
    (∀ d, cell.dataType = some d →
       evaluateCell d cell.operator (lookupGo input cell.column) cell.value = .ok false →
       r.matches input = .ok false)
    ∧ (cell.dataType = none →
       r.matches input = .error ("row " ++ toString r.number ++ " column " ++ cell.column ++
         " missing data type metadata")) := by
  have hskip : r.matches input = matchCells r.number input (cell :: post) := by
    unfold Row.matches
    rw [hsplit]
    exact matchCells_append_true r.number input pre (cell :: post) hpre
  constructor
  · intro d hd hfalse
    rw [hskip]
    unfold matchCells
    simp only [hd, hfalse]
  · intro hd
    rw [hskip]
    unfold matchCells
    simp only [hd]

/-- Witness for C5: the first cell of `w5Row` fails on the witness input,
so the ill-typed second cell is never evaluated and `matches` is
`ok false`; the second cell of `w5RowNoType` lacks a data type and is
reached, so `matches` reports the row-and-column error. -/
theorem matches_short_circuits_witness :
    w5Row.matches w1Input = .ok false
    ∧ w5RowNoType.matches w1Input =
        .error "row 4 column flag missing data type metadata" := by
  constructor
  · exact (matches_short_circuits w5Row w1Input []
      { column := "age", operator := .equal, value := .int 5, dataType := some .integer }
      [{ column := "age", operator := .greater, value := .str "oops",
         dataType := some .string }] rfl (by simp)).1 .integer rfl rfl
  · have h := (matches_short_circuits w5RowNoType w1Input
      [{ column := "age", operator := .isNotNull, value := .bool true,
         dataType := some .integer }]
      { column := "flag", operator := .equal, value := .int 1, dataType := none } [] rfl
      (by intro c hc
          simp at hc
          subst hc
          exact ⟨.integer, rfl, rfl⟩)).2 rfl
    exact h

/-- Under UNIQUE, when at most one match remains possible in total, the
loop succeeds and returns the accumulated and matched rows in order. -/
theorem evalLoop_unique_ok (input : Input) (rows : List Row) (acc : List MatchedRow)
    (h : ∀ r ∈ rows, rowSucceeds input r)
    (hlen : acc.length + (rows.filter (rowHits input)).length ≤ 1) :
    evalLoop .unique input rows acc =
      .ok (acc ++ (rows.filter (rowHits input)).map toMatchedRow) := by
  induction rows generalizing acc with
  | nil => simp [evalLoop]
  | cons r rest ih =>
    obtain ⟨b, hb⟩ := h r (List.mem_cons_self r rest)
    have hrest : ∀ r2 ∈ rest, rowSucceeds input r2 :=
      fun r2 h2 => h r2 (List.mem_cons_of_mem r h2)
    cases b with
    | false =>
      have hhit : rowHits input r = false := by simp [rowHits, hb]
      unfold evalLoop
      rw [hb]
      rw [List.filter_cons_of_neg (by simp [hhit])] at hlen ⊢
      exact ih acc hrest hlen
    | true =>
      have hhit : rowHits input r = true := by simp [rowHits, hb]
      rw [List.filter_cons_of_pos (by simp [hhit])] at hlen ⊢
      simp only [List.length_cons] at hlen
      have hacc : acc.length = 0 ∧ (rest.filter (rowHits input)).length = 0 := by
        constructor <;> omega
      unfold evalLoop
      rw [hb]
      have hcond : (((MatchPolicy.unique == .unique) : Bool)
          && decide ((acc ++ [toMatchedRow r]).length > 1)) = false := by
        simp [hacc.1]
      simp only [show ((MatchPolicy.unique == MatchPolicy.first) : Bool) = false from rfl,
        Bool.false_eq_true, if_false, hcond]
      rw [ih (acc ++ [toMatchedRow r]) hrest (by simp [hacc.1, hacc.2])]
      simp

/-- Under UNIQUE, an accumulator already holding one match plus any
further match makes the loop fail with the ambiguity error. -/
theorem evalLoop_unique_err_one (input : Input) (rows : List Row) (acc : List MatchedRow)
    (h : ∀ r ∈ rows, rowSucceeds input r) (hacc : acc.length = 1)
    (hhit : 1 ≤ (rows.filter (rowHits input)).length) :
    evalLoop .unique input rows acc =
      .error "match policy UNIQUE expected exactly one match, found at least 2" := by
  induction rows with
  | nil => simp at hhit
  | cons r rest ih =>
    obtain ⟨b, hb⟩ := h r (List.mem_cons_self r rest)
    have hrest : ∀ r2 ∈ rest, rowSucceeds input r2 :=
      fun r2 h2 => h r2 (List.mem_cons_of_mem r h2)
    cases b with
    | false =>
      have hhitr : rowHits input r = false := by simp [rowHits, hb]
      rw [List.filter_cons_of_neg (by simp [hhitr])] at hhit
      unfold evalLoop
      rw [hb]
      exact ih hrest hhit
    | true =>
      unfold evalLoop
      rw [hb]
      have hlen2 : (acc ++ [toMatchedRow r]).length = 2 := by simp [hacc]
      simp only [hlen2]
      rfl

/-- Under UNIQUE, two or more matching rows make the loop fail with the
ambiguity error. -/
theorem evalLoop_unique_err (input : Input) (rows : List Row)
    (h : ∀ r ∈ rows, rowSucceeds input r)
    (hhits : 2 ≤ (rows.filter (rowHits input)).length) :
    evalLoop .unique input rows [] =
      .error "match policy UNIQUE expected exactly one match, found at least 2" := by
  induction rows with
  | nil => simp at hhits
  | cons r rest ih =>
    obtain ⟨b, hb⟩ := h r (List.mem_cons_self r rest)
    have hrest : ∀ r2 ∈ rest, rowSucceeds input r2 :=
      fun r2 h2 => h r2 (List.mem_cons_of_mem r h2)
    cases b with
    | false =>
      have hhitr : rowHits input r = false := by simp [rowHits, hb]
      rw [List.filter_cons_of_neg (by simp [hhitr])] at hhits
      unfold evalLoop
      rw [hb]
      exact ih hrest hhits
    | true =>
      have hhitr : rowHits input r = true := by simp [rowHits, hb]
      rw [List.filter_cons_of_pos (by simp [hhitr])] at hhits
      simp only [List.length_cons] at hhits
      unfold evalLoop
      rw [hb]
      have hcond : (((MatchPolicy.unique == .unique) : Bool)
          && decide ((([] : List MatchedRow) ++ [toMatchedRow r]).length > 1)) = false := by
        simp
      simp only [show ((MatchPolicy.unique == MatchPolicy.first) : Bool) = false from rfl,
        Bool.false_eq_true, if_false, hcond]
      exact evalLoop_unique_err_one input rest ([] ++ [toMatchedRow r]) hrest (by simp)
        (by omega)

/-- C2 counterexample: under UNIQUE the two iffs of the claim fail at the
zero-match boundary. Table A (UNIQUE, THROW_ERROR, no default row, no
rows) fails although no two rows match; table B (UNIQUE, RETURN_DEFAULT
with a default row) returns exactly one result although no row
matches. -/
theorem unique_policy_counterexample :
    Evaluate cexUniqA [] none = .error "no rules matched and no default rule configured"
    ∧ (cexUniqA.rows.filter (rowHits [])).length = 0
    ∧ Evaluate cexUniqB [] none = .ok [toMatchedRow (fixtureDefaultRow 7)]
    ∧ (cexUniqB.rows.filter (rowHits [])).length = 0 :=
  ⟨rfl, rfl, rfl, rfl⟩

/-- When the row loop returns a non-empty list, `Evaluate` returns it
unchanged: the no-match handling does not fire. -/
theorem evalLoop_ok_evaluate (dt : DecisionTable) (input : Input)
    (fb : Option (List (String × GoVal))) (ms : List MatchedRow)
    (hl : evalLoop dt.matchPolicy input dt.rows [] = .ok ms) (hne : ms.length ≠ 0) :
    Evaluate dt input fb = .ok ms := by
  unfold Evaluate
  simp only [hl]
  rw [if_neg (by simp [hne])]

/-- C2 (amended): under UNIQUE, provided every row's match test succeeds,
`Evaluate` fails with the ambiguity error iff at least two rows match,
and when exactly one row matches it returns exactly one result (that
row's). Zero-match outcomes are instead governed by the no-match policy,
which can itself fail or produce a default entry. -/
theorem unique_policy_ambiguity (dt : DecisionTable) (input : Input)
    (fb : Option (List (String × GoVal)))
    (hmp : dt.matchPolicy = .unique)
    (h : ∀ r ∈ dt.rows, rowSucceeds input r) :
    (Evaluate dt input fb =
        .error "match policy UNIQUE expected exactly one match, found at least 2"
      ↔ 2 ≤ (dt.rows.filter (rowHits input)).length)
    ∧ ((dt.rows.filter (rowHits input)).length = 1 →
        Evaluate dt input fb = .ok ((dt.rows.filter (rowHits input)).map toMatchedRow)
        ∧ ((dt.rows.filter (rowHits input)).map toMatchedRow).length = 1) := by
  have hone : (dt.rows.filter (rowHits input)).length ≤ 1 →
      Evaluate dt input fb ≠
        .error "match policy UNIQUE expected exactly one match, found at least 2" := by
    intro hle
    by_cases hz : (dt.rows.filter (rowHits input)).length = 0
    · have hfil : dt.rows.filter (rowHits input) = [] := List.length_eq_zero.mp hz
      have hall : ∀ r ∈ dt.rows, r.matches input = .ok false := by
        intro r hr
        obtain ⟨b, hb⟩ := h r hr
        cases b with
        | false => exact hb
        | true =>
          have hhit : rowHits input r = true := by simp [rowHits, hb]
          have hmem : r ∈ dt.rows.filter (rowHits input) :=
            List.mem_filter.mpr ⟨hr, hhit⟩
          rw [hfil] at hmem
          simp at hmem
      have hout := noMatchOutcome dt input fb hall
      cases hpol : dt.noMatchPolicy
      · cases hd : dt.defaultRow with
        | some d => rw [(hout.1 hpol).1 d hd]; simp
        | none =>
          cases hfb : fb with
          | some m =>
            have hq := ((hout.1 hpol).2 hd).1 m hfb
            rw [hfb] at hq
            rw [hq]; simp
          | none =>
            have hq := ((hout.1 hpol).2 hd).2 hfb
            rw [hfb] at hq
            rw [hq]; simp
      · cases hd : dt.defaultRow with
        | some d => rw [(hout.2 hpol).1 d hd]; simp
        | none =>
          rw [(hout.2 hpol).2 hd]
          intro hcon
          exact absurd (Except.error.inj hcon) (by decide)
    · have h1 : (dt.rows.filter (rowHits input)).length = 1 := by omega
      have hloop := evalLoop_unique_ok input dt.rows [] h (by simp [h1])
      simp only [List.nil_append] at hloop
      rw [← hmp] at hloop
      rw [evalLoop_ok_evaluate dt input fb _ hloop (by simp [h1])]
      simp
  constructor
  · constructor
    · intro hev
      by_contra hlt
      push_neg at hlt
      exact hone (by omega) hev
    · intro hge
      unfold Evaluate
      rw [hmp, evalLoop_unique_err input dt.rows h hge]
  · intro hone'
    have hloop := evalLoop_unique_ok input dt.rows [] h (by simp [hone'])
    simp only [List.nil_append] at hloop
    rw [← hmp] at hloop
    exact ⟨evalLoop_ok_evaluate dt input fb _ hloop (by simp [hone']), by simp [hone']⟩

/-- Witness for the amended C2: two always-matching rows under UNIQUE
produce the ambiguity error. -/
theorem unique_policy_ambiguity_witness :
    wUniqDT.matchPolicy = .unique
    ∧ (wUniqDT.rows.filter (rowHits [])).length = 2
    ∧ Evaluate wUniqDT [] none =
        .error "match policy UNIQUE expected exactly one match, found at least 2" := by
  refine ⟨rfl, rfl, ?_⟩
  have h : ∀ r ∈ wUniqDT.rows, rowSucceeds ([] : Input) r := by
    intro r hr
    have : r = hitRow 1 ∨ r = hitRow 2 := by
      simpa [wUniqDT, fixtureTable] using hr
    rcases this with h1 | h2
    · subst h1; exact ⟨true, rfl⟩
    · subst h2; exact ⟨true, rfl⟩
  exact ((unique_policy_ambiguity wUniqDT [] none rfl h).1).mpr (by decide)

/-- Under ALL, when every row's match test succeeds, the loop accumulates
exactly the matching rows in declaration order. -/
theorem evalLoop_all (input : Input) (rows : List Row) (acc : List MatchedRow)
    (h : ∀ r ∈ rows, rowSucceeds input r) :
    evalLoop .all input rows acc =
      .ok (acc ++ (rows.filter (rowHits input)).map toMatchedRow) := by
  induction rows generalizing acc with
  | nil => simp [evalLoop]
  | cons r rest ih =>
    obtain ⟨b, hb⟩ := h r (List.mem_cons_self r rest)
    have hrest : ∀ r2 ∈ rest, rowSucceeds input r2 :=
      fun r2 h2 => h r2 (List.mem_cons_of_mem r h2)
    cases b with
    | false =>
      have hhit : rowHits input r = false := by simp [rowHits, hb]
      unfold evalLoop
      rw [hb, List.filter_cons_of_neg (by simp [hhit])]
      exact ih acc hrest
    | true =>
      have hhit : rowHits input r = true := by simp [rowHits, hb]
      unfold evalLoop
      rw [hb, List.filter_cons_of_pos (by simp [hhit])]
      simp only [show ((MatchPolicy.all == MatchPolicy.first) : Bool) = false from rfl,
        Bool.false_eq_true, if_false,
        show ((MatchPolicy.all == MatchPolicy.unique) : Bool) = false from rfl,
        Bool.false_and]
      rw [ih (acc ++ [toMatchedRow r]) hrest]
      simp

/-- `prepareRow` copies the raw row's number into the prepared row. -/
theorem prepareRow_number (dt : DecisionTable) (row : Row) (a b : Bool) (p : Row)
    (h : prepareRow dt row a b = .ok p) : p.number = row.number := by
  unfold prepareRow at h
  split at h
  · exact absurd h (by simp)
  · split at h
    · exact absurd h (by simp)
    · split at h
      · exact absurd h (by simp)
      · split at h
        · exact absurd h (by simp)
        · rw [Except.ok.injEq] at h
          rw [← h]

/-- A successful `AddRow` of a row without an explicit number appends one
stored row, numbered with its 1-based declaration position. -/
theorem AddRow_ok_shape (dt : DecisionTable) (r : Row) (dt2 : DecisionTable)
    (hA : AddRow dt r = (dt2, none)) (hr : r.number ≤ 0) :
    ∃ p, dt2.rows = dt.rows ++ [p] ∧ p.number = (dt.rows.length : Int) + 1 := by
  unfold AddRow at hA
  rcases hp : prepareRow dt r (dt.rowValidation == .strict) (dt.rowValidation == .strict)
    with e | p
  · rw [hp] at hA; simp at hA
  · rw [hp] at hA
    have hle : p.number ≤ 0 := by
      rw [prepareRow_number dt r _ _ p hp]; exact hr
    have hA2 : (({ dt with rows := dt.rows ++
          [if p.number ≤ 0 then { p with number := (dt.rows.length : Int) + 1 } else p] } :
        DecisionTable), (none : Option String)) = (dt2, none) := hA
    rw [if_pos hle, Prod.mk.injEq] at hA2
    refine ⟨{ p with number := (dt.rows.length : Int) + 1 }, ?_, rfl⟩
    rw [← hA2.1]

/-- Successful `AddRow` sequences over rows carrying no explicit row
number extend the 1-based sequential numbering of the stored rows. -/
theorem addRows_sequential (rs : List Row) :
    ∀ (dt dt' : DecisionTable),
    (∀ r ∈ rs, r.number ≤ 0) →
    (∀ i (h : i < dt.rows.length), dt.rows[i].number = (i : Int) + 1) →
    addRows dt rs = (dt', none) →
    ∀ i (h : i < dt'.rows.length), dt'.rows[i].number = (i : Int) + 1 := by
  induction rs with
  | nil =>
    intro dt dt' _ hseq hadd
    unfold addRows at hadd
    rw [Prod.mk.injEq] at hadd
    rw [← hadd.1]
    exact hseq
  | cons r rest ih =>
    intro dt dt' hnum hseq hadd
    unfold addRows at hadd
    rcases hA : AddRow dt r with ⟨dt2, err⟩
    rw [hA] at hadd
    cases err with
    | some e => simp at hadd
    | none =>
      simp only [] at hadd
      obtain ⟨p, hrows2, hnum2⟩ :=
        AddRow_ok_shape dt r dt2 hA (hnum r (List.mem_cons_self r rest))
      refine ih dt2 dt' (fun r2 h2 => hnum r2 (List.mem_cons_of_mem r h2)) ?_ hadd
      intro i hi
      simp only [hrows2] at hi ⊢
      simp only [List.length_append, List.length_cons, List.length_nil] at hi
      by_cases hlt : i < dt.rows.length
      · rw [List.getElem_append_left hlt]
        exact hseq i hlt
      · have hieq : i = dt.rows.length := by omega
        subst hieq
        rw [List.getElem_concat_length dt.rows _ dt.rows.length rfl (by simp)]
        exact hnum2

/-- C7 counterexample: rows registered through `AddRow` with explicit
out-of-order numbers (`5` then `3`) both match, and the returned
row-number sequence `[5, 3]` is not strictly increasing; moreover, with
zero matches and a configured default row the returned sequence `[7]` is
not the (empty) matching subsequence at all. -/
theorem all_policy_counterexample :
    (addRows (fixtureTable .all .throwError) [rawHitRow 5, rawHitRow 3]).snd = none
    ∧ (Evaluate cexAllDT [] none).map (fun ms => ms.map (fun m => m.rowNumber))
        = .ok [5, 3]
    ∧ ¬ List.Pairwise (fun a b => a < b) ([5, 3] : List Int)
    ∧ Evaluate cexAllDefaultDT [] none = .ok [toMatchedRow (fixtureDefaultRow 7)]
    ∧ (cexAllDefaultDT.rows.filter (rowHits [])).map (fun r => r.number) = [] := by
  refine ⟨rfl, rfl, ?_, rfl, rfl⟩
  intro h
  have := List.rel_of_pairwise_cons h (List.mem_singleton_self 3)
  omega

/-- C7 (amended): under ALL, for tables built by successful `AddRow` calls
from an empty row list where every registered row carries no explicit
number (`number ≤ 0`), each stored row is numbered with its 1-based
declaration position, and on every input where each row's match test
succeeds and at least one row matches, the returned row-number sequence
is exactly the declaration-order numbers of the matching rows and is
strictly increasing. -/
theorem all_policy_increasing_numbers (dt0 dt : DecisionTable) (rs : List Row)
    (input : Input) (fb : Option (List (String × GoVal)))
    (hrows0 : dt0.rows = [])
    (hnum : ∀ r ∈ rs, r.number ≤ 0)
    (hbuild : addRows dt0 rs = (dt, none))
    (hmp : dt.matchPolicy = .all)
    (hsucc : ∀ r ∈ dt.rows, rowSucceeds input r)
    (hhit : ∃ r ∈ dt.rows, rowHits input r) :
    (∀ i (h : i < dt.rows.length), dt.rows[i].number = (i : Int) + 1)
    ∧ Evaluate dt input fb = .ok ((dt.rows.filter (rowHits input)).map toMatchedRow)
    ∧ ((dt.rows.filter (rowHits input)).map toMatchedRow).map (fun m => m.rowNumber)
        = (dt.rows.filter (rowHits input)).map (fun r => r.number)
    ∧ List.Pairwise (fun a b => a < b)
        (((dt.rows.filter (rowHits input)).map toMatchedRow).map (fun m => m.rowNumber)) := by
  have hseq : ∀ i (h : i < dt.rows.length), dt.rows[i].number = (i : Int) + 1 :=
    addRows_sequential rs dt0 dt hnum
      (by rw [hrows0]; intro i h; simp at h) hbuild
  have hfilne : dt.rows.filter (rowHits input) ≠ [] := by
    obtain ⟨r, hr, hhitr⟩ := hhit
    intro hcon
    have hmem : r ∈ dt.rows.filter (rowHits input) := List.mem_filter.mpr ⟨hr, hhitr⟩
    rw [hcon] at hmem
    simp at hmem
  refine ⟨hseq, ?_, ?_, ?_⟩
  · have hloop := evalLoop_all input dt.rows [] hsucc
    simp only [List.nil_append] at hloop
    rw [← hmp] at hloop
    refine evalLoop_ok_evaluate dt input fb _ hloop ?_
    simp [hfilne]
  · rw [List.map_map]
    rfl
  · have hpw : dt.rows.Pairwise (fun a b => a.number < b.number) := by
      rw [List.pairwise_iff_getElem]
      intro i j hi hj hij
      rw [hseq i hi, hseq j hj]
      omega
    have hpf : (dt.rows.filter (rowHits input)).Pairwise (fun a b => a.number < b.number) :=
      hpw.sublist (List.filter_sublist dt.rows)
    rw [List.map_map, List.pairwise_map]
    exact hpf

/-- Witness for the amended C7: one row registered without a row number
matches, and the returned row-number sequence is strictly increasing. -/
theorem all_policy_increasing_numbers_witness :
    Evaluate wAllDT [] none = .ok ((wAllDT.rows.filter (rowHits [])).map toMatchedRow)
    ∧ List.Pairwise (fun a b => a < b)
        (((wAllDT.rows.filter (rowHits [])).map toMatchedRow).map (fun m => m.rowNumber)) := by
  have hre : wAllDT.rows = [storedHitRow 1 0] := rfl
  have h := all_policy_increasing_numbers (fixtureTable .all .throwError) wAllDT
    [rawHitRow 0] [] none rfl
    (by intro r hr
        have : r = rawHitRow 0 := by simpa using hr
        subst this
        rfl)
    rfl rfl
    (by intro r hr
        rw [hre] at hr
        have : r = storedHitRow 1 0 := by simpa using hr
        subst this
        exact ⟨true, rfl⟩)
    ⟨storedHitRow 1 0, by rw [hre]; simp, rfl⟩
  exact ⟨h.2.1, h.2.2.2⟩
